import Mathlib

/-!
Verification of the greenlight movie-API core: a shallow embedding of the
repository's data layer (sentinel errors, validator accumulator, the
Runtime JSON codec, the movie store with optimistic concurrency, the
filtered listing query, and token generation), with theorems settling the
specification claims against it.

Conventions of the embedding:
  - Go machine integers (int32, int64) are modelled as Int, with explicit
    two's-complement wrapping where a Go conversion truncates.
  - Byte slices are List Nat (each entry a byte value), strings are String
    or List Char.
  - The SQL store is modelled as an in-memory table (a list of rows plus a
    serial counter); each query in src/internal/data is translated
    clause by clause.
  - time.Time is modelled as Int (an abstract absolute instant).
-/

/-! ## Sentinel errors (src/unnamed/part_000, internal/data/models.go)

Go `errors.New` allocates a fresh error value each call; `errors.Is` on
such sentinel values compares identity, not message text. A GoError
therefore carries an allocation identity `id` alongside its message. -/

structure GoError where
  id : Nat
  msg : String
deriving DecidableEq

/-- The sentinel `ErrRecordNotFound = errors.New("record not found")`. -/
def ErrRecordNotFound : GoError := ⟨0, "record not found"⟩

/-- The sentinel `ErrEditConflict = errors.New("record not found")` — note the
source gives it the same message text as `ErrRecordNotFound`. -/
def ErrEditConflict : GoError := ⟨1, "record not found"⟩

/-- The sentinel `ErrInvalidRuntimeFormat = errors.New("invalid runtime format")`
from src/unnamed/part_001. -/
def ErrInvalidRuntimeFormat : GoError := ⟨2, "invalid runtime format"⟩

/-- Models Go `errors.Is(err, target)` for unwrapped sentinel error values:
identity comparison. -/
def errorsIs (e target : GoError) : Bool := decide (e = target)

/-! ## Validator (src/internal/validator/validator.go)

The Go `map[string]string` is modelled as an association list whose keys
stay unique because insertion only happens when the key is absent, exactly
as `AddError` does; `len(v.Errors)` is then the list length. -/

structure Validator where
  Errors : List (String × String)
deriving DecidableEq

/-- Lookup of `v.Errors[key]` (the comma-ok map read used by `AddError`). -/
def Validator.errorFor (v : Validator) (key : String) : Option String :=
  (v.Errors.find? (fun p => p.1 == key)).map (fun p => p.2)

/-- `AddError` adds the entry only if the key does not already exist. -/
def Validator.AddError (v : Validator) (key message : String) : Validator :=
  if (v.Errors.find? (fun p => p.1 == key)).isSome then v
  else ⟨v.Errors ++ [(key, message)]⟩

/-- `Check(ok, key, message)` records the message only when `ok` is false. -/
def Validator.Check (v : Validator) (ok : Bool) (key message : String) : Validator :=
  if ok then v else v.AddError key message

/-- `Valid()` reports whether the errors map is empty. -/
def Validator.Valid (v : Validator) : Bool := v.Errors.length == 0

/-! ## Runtime JSON codec (src/unnamed/part_001, internal/data/runtime.go) -/

/-- Go `Runtime` has underlying type int32; modelled as Int with explicit
wrapping at the conversion point. -/
abbrev Runtime := Int

/-- Go `int32(m)` conversion from int64: two's-complement truncation to
32 bits. -/
def int32ofInt (n : Int) : Int := (n + 2147483648) % 4294967296 - 2147483648

/-- Models `strconv.Quote` for strings that contain no character needing an
escape (the only strings the codec produces: digits, letters, spaces and a
minus sign). -/
def strconvQuote (s : String) : String := "\"" ++ s ++ "\""

/-- Body scanner for `strconvUnquote`: consumes characters until the closing
double quote, rejecting a stray quote or a backslash (escape sequences do
not occur in any input considered here, so a backslash is simply refused
by the model rather than decoded). -/
def unquoteBody : List Char → Option (List Char)
  | [] => none
  | c :: rest =>
      if c = '"' then (if rest = [] then some [] else none)
      else if c = '\\' then none
      else (unquoteBody rest).map (fun l => c :: l)

/-- Models `strconv.Unquote` on escape-free double-quoted strings: the input
must start with a double quote and end with the matching one. -/
def strconvUnquote : List Char → Option (List Char)
  | '"' :: rest => unquoteBody rest
  | _ => none

/-- Models Go `strings.Split(s, " ")`: splits at every single space, keeping
empty parts; the result is never empty. -/
def stringsSplitSpace : List Char → List (List Char)
  | [] => [[]]
  | c :: rest =>
      if c = ' ' then [] :: stringsSplitSpace rest
      else
        match stringsSplitSpace rest with
        | p :: ps => (c :: p) :: ps
        | [] => [[c]]

/-- Decimal digit test used by the `strconv.ParseInt` model. -/
def isDigitChar (c : Char) : Bool := 48 ≤ c.toNat && c.toNat ≤ 57

/-- Accumulates the value of a digit string, most significant first. -/
def digitsToNat (l : List Char) : Nat :=
  l.foldl (fun acc c => acc * 10 + (c.toNat - 48)) 0

/-- Digit-string half of the `strconv.ParseInt` model: at least one decimal
digit, nothing else, and the signed value must fit in int64 (overflow is
Go ErrRange, reported as an error). -/
def parseDigitsInt64 (neg : Bool) (ds : List Char) : Option Int :=
  if ds = [] then none
  else if ¬ ds.all isDigitChar then none
  else
    let v : Int := if neg then -(digitsToNat ds : Int) else (digitsToNat ds : Int)
    if v < -9223372036854775808 ∨ 9223372036854775807 < v then none else some v

/-- Models Go `strconv.ParseInt(s, 10, 64)`: an optional leading sign
followed by the digit string. -/
def strconvParseInt64 (l : List Char) : Option Int :=
  match l with
  | '+' :: rest => parseDigitsInt64 false rest
  | '-' :: rest => parseDigitsInt64 true rest
  | _ => parseDigitsInt64 false l

/-- `Runtime.MarshalJSON`: the source formats with `fmt.Sprintf("%d min", r)`
— note the suffix the code actually writes is " min", not " mins" — and
then quotes the result with `strconv.Quote`. -/
def Runtime.MarshalJSON (r : Runtime) : String :=
  strconvQuote (toString r ++ " min")

/-- `Runtime.UnmarshalJSON`: unquote, split on single spaces, require exactly
two parts with the second equal to "mins", parse the first with
`strconv.ParseInt(_, 10, 64)`, and store the int32 conversion of the
result; every failure is reported as `ErrInvalidRuntimeFormat`. -/
def Runtime.UnmarshalJSON (jsonValue : List Char) : Except GoError Runtime :=
  match strconvUnquote jsonValue with
  | none => .error ErrInvalidRuntimeFormat
  | some unq =>
      match stringsSplitSpace unq with
      | [p0, p1] =>
          if p1 = "mins".data then
            match strconvParseInt64 p0 with
            | none => .error ErrInvalidRuntimeFormat
            | some m => .ok (int32ofInt m)
          else .error ErrInvalidRuntimeFormat
      | _ => .error ErrInvalidRuntimeFormat

/-! ## Movie store (src/internal/data/movies.go)

The movies table is modelled as a list of rows plus the bigserial counter
the schema uses for `id`. Each method translates the SQL it issues. -/

structure Movie where
  id : Int
  createdAt : Int
  title : String
  year : Int
  runtime : Int
  genres : List String
  version : Int
deriving DecidableEq

/-- The movies table reachable through `MovieModel.DB`: its rows and the
next value of the `id` bigserial sequence. -/
structure MovieModel where
  rows : List Movie
  nextId : Int
deriving DecidableEq

/-- The `WHERE id = $5 AND version = $6` condition of the UPDATE query. -/
def rowMatches (mv : Movie) (r : Movie) : Bool :=
  r.id == mv.id && r.version == mv.version

/-- The set of rows the conditional UPDATE touches. -/
def movieMatched (rows : List Movie) (mv : Movie) : List Movie :=
  rows.filter (rowMatches mv)

/-- The SET clause of the UPDATE applied to one matched row:
`SET title = $1, year = $2, runtime = $3, genres = $4, version = version + 1`. -/
def updateRow (r mv : Movie) : Movie :=
  { id := r.id, createdAt := r.createdAt, title := mv.title, year := mv.year,
    runtime := mv.runtime, genres := mv.genres, version := r.version + 1 }

/-- The table after the conditional UPDATE ran: matched rows rewritten by
the SET clause, all others untouched. -/
def movieBumped (rows : List Movie) (mv : Movie) : List Movie :=
  rows.map (fun r => if rowMatches mv r then updateRow r mv else r)

/-- `MovieModel.Update`: the conditional write
`UPDATE movies SET ..., version = version + 1 WHERE id = $5 AND version = $6
RETURNING version`. Zero matched rows makes `QueryRow(...).Scan` return
`sql.ErrNoRows`, which the method maps to `ErrEditConflict`; otherwise the
new version of the (first) matched row is scanned back. -/
def MovieModel.Update (m : MovieModel) (mv : Movie) : MovieModel × Except GoError Int :=
  match movieMatched m.rows mv with
  | [] => (m, .error ErrEditConflict)
  | r :: _ => ({ m with rows := movieBumped m.rows mv }, .ok (r.version + 1))

/-- Sequential composition of Updates: the serialization of concurrent
callers racing on the store (§5 of the spec makes the check-and-increment
a single atomic storage operation, so every interleaving is one such
serialization). Returns the final table and each call's result. -/
def MovieModel.applyUpdates (m : MovieModel) : List Movie → MovieModel × List (Except GoError Int)
  | [] => (m, [])
  | u :: us =>
      let first := MovieModel.Update m u
      let rest := MovieModel.applyUpdates first.1 us
      (rest.1, first.2 :: rest.2)

/-- `MovieModel.Delete`: rejects `id < 1`, then runs
`DELETE FROM movies WHERE id=$1`. The driver reports the affected-row
count without error, modelled by `raErr := none`; the source only examines
`rowsAffected == 0` inside the `if err != nil` branch, so that comparison
is preserved in the (unreachable) error arm exactly as written. -/
def MovieModel.Delete (m : MovieModel) (id : Int) : MovieModel × Option GoError :=
  if id < 1 then (m, some ErrRecordNotFound)
  else
    let remaining := m.rows.filter (fun r => !(r.id == id))
    let rowsAffected := m.rows.length - remaining.length
    let raErr : Option GoError := none
    match raErr with
    | some e =>
        if rowsAffected = 0 then ({ m with rows := remaining }, some ErrRecordNotFound)
        else ({ m with rows := remaining }, some e)
    | none => ({ m with rows := remaining }, none)

/-- `MovieModel.Get`: rejects `id < 1` (bigserial starts at 1), then runs
`SELECT ... FROM movies WHERE id = $1`; no row gives `sql.ErrNoRows`,
mapped to `ErrRecordNotFound`. -/
def MovieModel.Get (m : MovieModel) (id : Int) : Except GoError Movie :=
  if id < 1 then .error ErrRecordNotFound
  else
    match m.rows.filter (fun r => r.id == id) with
    | [] => .error ErrRecordNotFound
    | r :: _ => .ok r

/-- `MovieModel.Insert`: `INSERT INTO movies (title, year, runtime, genres)
VALUES ($1, $2, $3, $4) RETURNING id, created_at, version`.
Modelled from the spec: the movies schema (its migration files are not
under src/) assigns the surrogate key from the serial sequence (≥ 1,
monotonically increasing), `created_at` at insert time, and
`version` starting at 1; the scanned values populate the record. -/
def MovieModel.Insert (m : MovieModel) (now : Int) (mv : Movie) : MovieModel × Movie :=
  let row := { mv with id := m.nextId, createdAt := now, version := 1 }
  (⟨m.rows ++ [row], m.nextId + 1⟩, row)

/-! ## Filters and listing (src/internal/data/movies.go GetAll)

The Filters/Metadata component lives in filters.go, which is not under
src/ (only its callers are); it is modelled from the spec here. -/

/-- Modelled from the spec: filters.go is missing from src/. A Filter holds
page number (≥1), page size (bounded), and a sort field taken from an
allow-list, with descending direction encoded by a leading minus sign
(§3 Filter/Metadata). The Go field named Sort is rendered SortField here
because Sort is a Lean keyword. -/
structure Filters where
  Page : Int
  PageSize : Int
  SortField : String
  SortSafelist : List String
deriving DecidableEq

/-- Modelled from the spec: the sort column is the sort field with its
optional leading sign removed (validation against the allow-list happens
in the filter component before the store is reached, §4.4). -/
def Filters.sortColumn (f : Filters) : String :=
  match f.SortField.data with
  | '-' :: rest => String.mk rest
  | _ => f.SortField

/-- Modelled from the spec: descending iff the sort field carries the
leading minus sign, ascending otherwise. -/
def Filters.sortDirection (f : Filters) : String :=
  match f.SortField.data with
  | '-' :: _ => "DESC"
  | _ => "ASC"

/-- Modelled from the spec: `limit = pageSize` (§4.4 step 6). -/
def Filters.limit (f : Filters) : Int := f.PageSize

/-- Modelled from the spec: `offset = (page-1) * pageSize` (§4.4 step 6). -/
def Filters.offset (f : Filters) : Int := (f.Page - 1) * f.PageSize

/-- Modelled from the spec: listing responses carry current page, page
size, first/last page and total records (§3, §6). -/
structure Metadata where
  CurrentPage : Int
  PageSize : Int
  FirstPage : Int
  LastPage : Int
  TotalRecords : Int
deriving DecidableEq

/-- Modelled from the spec: all fields zero-valued when the total record
count is 0 (no division by zero); otherwise current page, page size, first
page 1, last page the ceiling of totalRecords / pageSize, and the total
(§3 Filter/Metadata). -/
def calculateMetadata (totalRecords pageSize page : Int) : Metadata :=
  if totalRecords = 0 then ⟨0, 0, 0, 0, 0⟩
  else ⟨page, pageSize, 1, (totalRecords + pageSize - 1) / pageSize, totalRecords⟩

/-- Value of the ORDER BY column for a row. Heterogeneous column types are
joined in the lexicographic sum `Int ⊕ₗ String`; every column in the
query's allow-listed set is one of id, year, runtime (integers) or title
(text), and an unknown column name falls back to id, which is never
reached for validated filters. -/
def columnVal (col : String) (mv : Movie) : Int ⊕ₗ String :=
  match col with
  | "title" => toLex (Sum.inr mv.title)
  | "year" => toLex (Sum.inl mv.year)
  | "runtime" => toLex (Sum.inl mv.runtime)
  | _ => toLex (Sum.inl mv.id)

/-- The sort key of a row under a filter. -/
def movieKey (f : Filters) (mv : Movie) : Int ⊕ₗ String := columnVal f.sortColumn mv

/-- Generic lexicographic comparison by a primary key and a tie-break key. -/
def lexLe {α K T : Type} [LinearOrder K] [LinearOrder T]
    (k : α → K) (t : α → T) (a b : α) : Prop :=
  k a < k b ∨ (k a = k b ∧ t a ≤ t b)

theorem lexLe_total {α K T : Type} [LinearOrder K] [LinearOrder T]
    (k : α → K) (t : α → T) (a b : α) : lexLe k t a b ∨ lexLe k t b a := by
  rcases lt_trichotomy (k a) (k b) with h | h | h
  · exact Or.inl (Or.inl h)
  · rcases le_total (t a) (t b) with ht | ht
    · exact Or.inl (Or.inr ⟨h, ht⟩)
    · exact Or.inr (Or.inr ⟨h.symm, ht⟩)
  · exact Or.inr (Or.inl h)

theorem lexLe_trans {α K T : Type} [LinearOrder K] [LinearOrder T]
    (k : α → K) (t : α → T) (a b c : α) :
    lexLe k t a b → lexLe k t b c → lexLe k t a c := by
  rintro (h₁ | ⟨he₁, ht₁⟩) (h₂ | ⟨he₂, ht₂⟩)
  · exact Or.inl (lt_trans h₁ h₂)
  · exact Or.inl (he₂ ▸ h₁)
  · exact Or.inl (he₁ ▸ h₂)
  · exact Or.inr ⟨he₁.trans he₂, ht₁.trans ht₂⟩

/-- The ORDER BY relation of the GetAll query:
`ORDER BY col dir, id ASC` — primary comparison on the chosen column in
the chosen direction, ties broken by id ascending. -/
def MovieLe (f : Filters) (a b : Movie) : Prop :=
  if f.sortDirection = "DESC" then
    lexLe (fun mv => OrderDual.toDual (movieKey f mv)) (fun mv => mv.id) a b
  else
    lexLe (movieKey f) (fun mv => mv.id) a b

instance movieLeDecidable (f : Filters) : DecidableRel (MovieLe f) := fun a b => by
  unfold MovieLe lexLe
  infer_instance

instance movieLeTotal (f : Filters) : IsTotal Movie (MovieLe f) := by
  constructor
  intro a b
  unfold MovieLe
  split
  · exact lexLe_total _ _ a b
  · exact lexLe_total _ _ a b

instance movieLeTrans (f : Filters) : IsTrans Movie (MovieLe f) := by
  constructor
  intro a b c
  unfold MovieLe
  split
  · exact lexLe_trans _ _ a b c
  · exact lexLe_trans _ _ a b c

/-- The WHERE clause of GetAll:
`(to_tsvector(title) @@ plainto_tsquery($1) OR $1 = '') AND
 (genres @> $2 OR $2 = '{}')`. The full-text relevance operator `@@` is a
database feature, passed in as the abstract predicate `tsMatch`; array
containment `@>` holds when every filter genre occurs in the row. -/
def moviesMatching (tsMatch : String → String → Bool)
    (title : String) (genres : List String) (rows : List Movie) : List Movie :=
  rows.filter (fun r =>
    (tsMatch title r.title || (title == ""))
      && (genres.all (fun g => r.genres.contains g) || genres.isEmpty))

/-- `MovieModel.GetAll`: WHERE filter, ORDER BY the filter's column and
direction with id ascending as tie-break, LIMIT/OFFSET paging, and a
`count(*) OVER()` window (the size of the whole matching set, computed
before LIMIT) scanned into `totalRecords` once per returned row — the
variable starts at 0 and is only written inside the row loop, which the
final fold reproduces. -/
def MovieModel.GetAll (m : MovieModel) (tsMatch : String → String → Bool)
    (title : String) (genres : List String) (f : Filters) : List Movie × Metadata :=
  let matching := moviesMatching tsMatch title genres m.rows
  let sorted := List.insertionSort (MovieLe f) matching
  let page := (sorted.drop f.offset.toNat).take f.limit.toNat
  let totalRecords := page.foldl (fun _ _ => matching.length) 0
  (page, calculateMetadata (totalRecords : Int) f.PageSize f.Page)

/-! ## Token generation (src/unnamed/part_002, internal/data/tokens.go)

`generateToken` reads 16 bytes from the OS CSPRNG, base-32-encodes them
without padding (encoding/base32 StdEncoding.WithPadding(NoPadding)) into
the plaintext, and stores the SHA-256 digest of the plaintext as the hash.
The byte source is passed in as a function (crypto/rand is an external
collaborator); base32 and SHA-256 are implemented concretely below. -/

/-- Emits the 5-bit groups of RFC 4648 base-32 for a byte string, without
padding: full 5-byte blocks give 8 groups; a trailing remainder of
1, 2, 3 or 4 bytes gives 2, 4, 5 or 7 groups, its last group carrying the
leftover bits shifted into the high positions. -/
def b32groups : List Nat → List Nat
  | [] => []
  | [b0] => [b0 >>> 3, (b0 &&& 7) <<< 2]
  | [b0, b1] => [b0 >>> 3, ((b0 &&& 7) <<< 2) ||| (b1 >>> 6), (b1 >>> 1) &&& 31,
      (b1 &&& 1) <<< 4]
  | [b0, b1, b2] => [b0 >>> 3, ((b0 &&& 7) <<< 2) ||| (b1 >>> 6), (b1 >>> 1) &&& 31,
      ((b1 &&& 1) <<< 4) ||| (b2 >>> 4), (b2 &&& 15) <<< 1]
  | [b0, b1, b2, b3] => [b0 >>> 3, ((b0 &&& 7) <<< 2) ||| (b1 >>> 6), (b1 >>> 1) &&& 31,
      ((b1 &&& 1) <<< 4) ||| (b2 >>> 4), ((b2 &&& 15) <<< 1) ||| (b3 >>> 7),
      (b3 >>> 2) &&& 31, (b3 &&& 3) <<< 3]
  | b0 :: b1 :: b2 :: b3 :: b4 :: rest => b0 >>> 3 :: (((b0 &&& 7) <<< 2) ||| (b1 >>> 6)) ::
      ((b1 >>> 1) &&& 31) :: (((b1 &&& 1) <<< 4) ||| (b2 >>> 4)) ::
      (((b2 &&& 15) <<< 1) ||| (b3 >>> 7)) :: ((b3 >>> 2) &&& 31) ::
      (((b3 &&& 3) <<< 3) ||| (b4 >>> 5)) :: (b4 &&& 31) :: b32groups rest

/-- The standard base-32 alphabet used by encoding/base32 StdEncoding. -/
def base32Alphabet : List Char := "ABCDEFGHIJKLMNOPQRSTUVWXYZ234567".data

def b32char (n : Nat) : Char := base32Alphabet.getD n 'A'

/-- Models `base32.StdEncoding.WithPadding(base32.NoPadding).EncodeToString`. -/
def base32EncodeNoPad (bytes : List Nat) : String :=
  String.mk ((b32groups bytes).map b32char)

/-! ### SHA-256 (crypto/sha256, the fixed digest the token hash uses)

A direct FIPS 180-4 implementation on byte lists; words are Nat reduced
modulo 2^32 at every operation that can overflow. -/

def w32 (n : Nat) : Nat := n % 4294967296

def rotr32 (n x : Nat) : Nat := w32 ((x >>> n) ||| (x <<< (32 - n)))

def shaCh (x y z : Nat) : Nat := (x &&& y) ^^^ ((x ^^^ 4294967295) &&& z)

def shaMaj (x y z : Nat) : Nat := (x &&& y) ^^^ (x &&& z) ^^^ (y &&& z)

def bigSigma0 (x : Nat) : Nat := rotr32 2 x ^^^ rotr32 13 x ^^^ rotr32 22 x

def bigSigma1 (x : Nat) : Nat := rotr32 6 x ^^^ rotr32 11 x ^^^ rotr32 25 x

def smallSigma0 (x : Nat) : Nat := rotr32 7 x ^^^ rotr32 18 x ^^^ (x >>> 3)

def smallSigma1 (x : Nat) : Nat := rotr32 17 x ^^^ rotr32 19 x ^^^ (x >>> 10)

/-- The 64 SHA-256 round constants. -/
def shaK : List Nat :=
  [1116352408, 1899447441, 3049323471, 3921009573, 961987163, 1508970993,
   2453635748, 2870763221, 3624381080, 310598401, 607225278, 1426881987,
   1925078388, 2162078206, 2614888103, 3248222580, 3835390401, 4022224774,
   264347078, 604807628, 770255983, 1249150122, 1555081692, 1996064986,
   2554220882, 2821834349, 2952996808, 3210313671, 3336571891, 3584528711,
   113926993, 338241895, 666307205, 773529912, 1294757372, 1396182291,
   1695183700, 1986661051, 2177026350, 2456956037, 2730485921, 2820302411,
   3259730800, 3345764771, 3516065817, 3600352804, 4094571909, 275423344,
   430227734, 506948616, 659060556, 883997877, 958139571, 1322822218,
   1537002063, 1747873779, 1955562222, 2024104815, 2227730452, 2361852424,
   2428436474, 2756734187, 3204031479, 3329325298]

structure Sha256State where
  a : Nat
  b : Nat
  c : Nat
  d : Nat
  e : Nat
  f : Nat
  g : Nat
  h : Nat

def shaInit : Sha256State :=
  ⟨1779033703, 3144134277, 1013904242, 2773480762, 1359893119, 2600822924, 528734635, 1541459225⟩

def shaRound (s : Sha256State) (kw w : Nat) : Sha256State :=
  let t1 := w32 (s.h + bigSigma1 s.e + shaCh s.e s.f s.g + kw + w)
  let t2 := w32 (bigSigma0 s.a + shaMaj s.a s.b s.c)
  ⟨w32 (t1 + t2), s.a, s.b, s.c, w32 (s.d + t1), s.e, s.f, s.g⟩

/-- Big-endian 4-byte groups to 32-bit words. -/
def bytesToWords : List Nat → List Nat
  | b0 :: b1 :: b2 :: b3 :: rest =>
      (b0 * 16777216 + b1 * 65536 + b2 * 256 + b3) :: bytesToWords rest
  | _ => []

/-- One message-schedule extension step, appending w[t] for the current t. -/
def scheduleStep (w : List Nat) : List Nat :=
  w ++ [w32 (smallSigma1 (w.getD (w.length - 2) 0) + w.getD (w.length - 7) 0
      + smallSigma0 (w.getD (w.length - 15) 0) + w.getD (w.length - 16) 0)]

/-- Extends the 16 chunk words to the 64-entry schedule. -/
def shaSchedule (w : List Nat) : List Nat :=
  (List.range 48).foldl (fun acc _ => scheduleStep acc) w

def shaCompress (s : Sha256State) (chunk : List Nat) : Sha256State :=
  let w := shaSchedule (bytesToWords chunk)
  let t := (shaK.zip w).foldl (fun st p => shaRound st p.1 p.2) s
  ⟨w32 (s.a + t.a), w32 (s.b + t.b), w32 (s.c + t.c), w32 (s.d + t.d),
   w32 (s.e + t.e), w32 (s.f + t.f), w32 (s.g + t.g), w32 (s.h + t.h)⟩

/-- Big-endian bytes of one 32-bit word. -/
def wordBytes (w : Nat) : List Nat :=
  [w / 16777216 % 256, w / 65536 % 256, w / 256 % 256, w % 256]

def stateBytes (s : Sha256State) : List Nat :=
  wordBytes s.a ++ wordBytes s.b ++ wordBytes s.c ++ wordBytes s.d
    ++ wordBytes s.e ++ wordBytes s.f ++ wordBytes s.g ++ wordBytes s.h

/-- Big-endian 8-byte encoding of the message bit length. -/
def lenBytes64 (n : Nat) : List Nat :=
  [n >>> 56 % 256, n >>> 48 % 256, n >>> 40 % 256, n >>> 32 % 256,
   n >>> 24 % 256, n >>> 16 % 256, n >>> 8 % 256, n % 256]

/-- FIPS 180-4 padding: a 0x80 byte, zeros to 56 mod 64, then the bit
length. -/
def sha256pad (msg : List Nat) : List Nat :=
  msg ++ (128 :: List.replicate ((64 + 55 - msg.length % 64) % 64) 0)
    ++ lenBytes64 (8 * msg.length)

/-- Splits the padded message into 64-byte blocks. -/
def chunks64 (l : List Nat) : List (List Nat) :=
  if h : l = [] then [] else l.take 64 :: chunks64 (l.drop 64)
termination_by l.length
decreasing_by
  have hl : 0 < l.length := List.length_pos.mpr h
  simp only [List.length_drop]
  omega

def sha256 (msg : List Nat) : List Nat :=
  stateBytes ((chunks64 (sha256pad msg)).foldl shaCompress shaInit)

/-- Go `sha256.Sum256([]byte(s))`: the digest of the UTF-8 bytes of s. The
plaintexts hashed here are base-32 output, hence ASCII, where the
code-point value is the byte value. -/
def sha256String (s : String) : List Nat := sha256 (s.data.map Char.toNat)

/-! ### Token model -/

structure Token where
  Hash : List Nat
  PlainText : String
  UserID : Int
  Expiry : Int
  Scope : String
deriving DecidableEq

/-- One row of the tokens table: exactly the four columns the INSERT
persists — the plaintext is never stored. -/
structure TokenRow where
  hash : List Nat
  user_id : Int
  expiry : Int
  scope : String
deriving DecidableEq

/-- `generateToken(userID, ttl, scope)`: expiry is now + ttl; 16 bytes are
drawn from the CSPRNG (`csprng n` models `rand.Read` filling a slice
allocated with `make([]byte, n)`); the plaintext is their unpadded
base-32 encoding and the hash is the SHA-256 digest of the plaintext. -/
def generateToken (now : Int) (csprng : Nat → List Nat)
    (userID ttl : Int) (scope : String) : Token :=
  let randomBytes := csprng 16
  let plaintext := base32EncodeNoPad randomBytes
  { UserID := userID, Expiry := now + ttl, Scope := scope,
    PlainText := plaintext, Hash := sha256String plaintext }

/-- `TokenModel.Insert`: `INSERT INTO tokens (hash, user_id, expiry, scope)
VALUES ($1, $2, $3, $4)` — appends exactly those four fields. -/
def TokenModel.Insert (db : List TokenRow) (t : Token) : List TokenRow :=
  db ++ [⟨t.Hash, t.UserID, t.Expiry, t.Scope⟩]

/-- `TokenModel.New`: generate a token, persist it, return it (plaintext
included — the only moment the plaintext is observable). -/
def TokenModel.New (db : List TokenRow) (now : Int) (csprng : Nat → List Nat)
    (userID ttl : Int) (scope : String) : List TokenRow × Token :=
  let token := generateToken now csprng userID ttl scope
  (TokenModel.Insert db token, token)

/-- `ValidateTokenPlaintext`: the plaintext must be provided and be exactly
26 bytes long (the plaintext is ASCII, so Go byte length equals character
count). -/
def ValidateTokenPlaintext (v : Validator) (tokenPlaintext : String) : Validator :=
  (v.Check (tokenPlaintext != "") "token" "must be provided").Check
    (tokenPlaintext.length == 26) "token" "must be 26 bytes long"

/-! ## Supporting lemmas -/

deriving instance DecidableEq for Except

theorem validator_find_append_none {l₁ l₂ : List (String × String)}
    (p : String × String → Bool) (h : l₁.find? p = none) :
    (l₁ ++ l₂).find? p = l₂.find? p := by
  induction l₁ with
  | nil => rfl
  | cons a t ih =>
      cases hp : p a with
      | true => simp [List.find?_cons, hp] at h
      | false =>
          simp only [List.find?_cons, hp] at h
          simpa only [List.cons_append, List.find?_cons, hp] using ih h

/-! ## Claim theorems -/

/-- C4: the sentinel error values ErrEditConflict and ErrRecordNotFound are
semantically distinct error values — errors.Is fails in both directions —
yet both carry the identical message text "record not found". -/
theorem sentinel_errors_distinct_values_same_message :
    ErrEditConflict.msg = "record not found"
  ∧ ErrRecordNotFound.msg = "record not found"
  ∧ errorsIs ErrEditConflict ErrRecordNotFound = false
  ∧ errorsIs ErrRecordNotFound ErrEditConflict = false
  ∧ ErrEditConflict ≠ ErrRecordNotFound := by
  refine ⟨rfl, rfl, rfl, rfl, ?_⟩
  intro h
  exact absurd (congrArg GoError.id h) (by decide)

/-- C8: Check records the message under the field only when the condition
is false; once a field has a recorded message, every later Check for that
field is a no-op regardless of its condition, so only the first failing
message per field is retained; and Valid() is true exactly when zero
errors have been accumulated. -/
theorem Validator_Check_keeps_first_message (v : Validator) (c : Bool) (key m1 m2 : String)
    (habsent : v.errorFor key = none) :
    v.Check true key m1 = v
  ∧ (v.Check false key m1).errorFor key = some m1
  ∧ (v.Check false key m1).Check c key m2 = v.Check false key m1
  ∧ (v.Valid = true ↔ v.Errors = []) := by
  have hfind : v.Errors.find? (fun p => p.1 == key) = none := by
    unfold Validator.errorFor at habsent
    exact Option.map_eq_none'.mp habsent
  have hchk : v.Check false key m1 = ⟨v.Errors ++ [(key, m1)]⟩ := by
    simp [Validator.Check, Validator.AddError, hfind]
  have hfound : (v.Errors ++ [(key, m1)]).find? (fun p => p.1 == key) = some (key, m1) := by
    rw [validator_find_append_none _ hfind]
    simp [List.find?_cons]
  refine ⟨rfl, ?_, ?_, ?_⟩
  · rw [hchk]
    simp [Validator.errorFor, hfound]
  · rw [hchk]
    cases c with
    | true => rfl
    | false => simp [Validator.Check, Validator.AddError, hfound]
  · simp [Validator.Valid, List.length_eq_zero]

/-- C8 witness: a fresh validator records the first failing message for a
field and retains it. -/
theorem Validator_Check_keeps_first_message_witness :
    Validator.errorFor ⟨[]⟩ "title" = none
  ∧ (Validator.Check ⟨[]⟩ false "title" "must be provided").errorFor "title"
      = some "must be provided" :=
  ⟨by decide,
   (Validator_Check_keeps_first_message ⟨[]⟩ false "title" "must be provided" "second message"
      (by decide)).2.1⟩

/-- C2 (code bug): the encoder writes the suffix " min" — `Runtime.MarshalJSON 102`
produces the JSON string "102 min", not "102 mins" as the claim (and the
method's own comment) state, so decode of encode(102) fails with
ErrInvalidRuntimeFormat; the decoding half of the claim holds: "102 mins"
decodes to 102, while "102 minutes" and "abc mins" are rejected. -/
theorem Runtime_MarshalJSON_min_suffix_breaks_roundtrip :
    Runtime.MarshalJSON 102 = "\"102 min\""
  ∧ Runtime.UnmarshalJSON ("\"102 min\"".data) = .error ErrInvalidRuntimeFormat
  ∧ Runtime.UnmarshalJSON ("\"102 mins\"".data) = .ok 102
  ∧ Runtime.UnmarshalJSON ("\"102 minutes\"".data) = .error ErrInvalidRuntimeFormat
  ∧ Runtime.UnmarshalJSON ("\"abc mins\"".data) = .error ErrInvalidRuntimeFormat := by
  refine ⟨?_, ?_, ?_, ?_, ?_⟩ <;> decide

/-- C3 (code bug): Delete with `id < 1` does fail with ErrRecordNotFound,
but deleting an id that is absent from the table (zero rows affected,
`RowsAffected` itself returning no driver error) returns nil: the
`rowsAffected == 0` comparison sits inside the `if err != nil` branch, so
the not-found translation the method's own comment promises is never
reached — a second Delete of an already-deleted id likewise returns nil. -/
theorem MovieModel_Delete_absent_id_returns_nil :
    MovieModel.Delete ⟨[], 1⟩ 1 = (⟨[], 1⟩, none)
  ∧ MovieModel.Delete ⟨[], 1⟩ 0 = (⟨[], 1⟩, some ErrRecordNotFound)
  ∧ (MovieModel.Delete (MovieModel.Delete ⟨[⟨7, 0, "Inception", 2010, 148, ["scifi"], 1⟩], 8⟩ 7).1 7).2
      = none := by
  refine ⟨?_, ?_, ?_⟩ <;> decide

theorem rowMatches_bumped_false (rows : List Movie) (mv : Movie) :
    ∀ r ∈ movieBumped rows mv, rowMatches mv r = false := by
  intro r hr
  unfold movieBumped at hr
  rw [List.mem_map] at hr
  obtain ⟨r0, hr0, heq⟩ := hr
  by_cases hm : rowMatches mv r0 = true
  · rw [if_pos hm] at heq
    simp only [rowMatches, Bool.and_eq_true, beq_iff_eq] at hm
    rw [← heq]
    simp only [rowMatches, updateRow, Bool.and_eq_false_iff, beq_eq_false_iff_ne]
    right
    omega
  · rw [if_neg hm] at heq
    rw [← heq]
    exact Bool.not_eq_true _ ▸ hm

theorem rowMatches_same_target (mv u r : Movie)
    (hid : u.id = mv.id) (hver : u.version = mv.version) :
    rowMatches u r = rowMatches mv r := by
  simp [rowMatches, hid, hver]

theorem movieMatched_nil_of_bumped (rows : List Movie) (mv u : Movie)
    (hid : u.id = mv.id) (hver : u.version = mv.version) :
    movieMatched (movieBumped rows mv) u = [] := by
  unfold movieMatched
  rw [List.filter_eq_nil_iff]
  intro r hr
  rw [rowMatches_same_target mv u r hid hver]
  simp [rowMatches_bumped_false rows mv r hr]

theorem movieUpdate_conflict (m : MovieModel) (mv : Movie)
    (h : movieMatched m.rows mv = []) :
    MovieModel.Update m mv = (m, .error ErrEditConflict) := by
  unfold MovieModel.Update
  rw [h]

theorem applyUpdates_all_conflict (m : MovieModel) (us : List Movie)
    (h : ∀ u ∈ us, movieMatched m.rows u = []) :
    MovieModel.applyUpdates m us = (m, List.replicate us.length (.error ErrEditConflict)) := by
  induction us with
  | nil => rfl
  | cons u us ih =>
      unfold MovieModel.applyUpdates
      rw [movieUpdate_conflict m u (h u (List.mem_cons_self u us))]
      simp only [ih (fun u2 hu2 => h u2 (List.mem_cons_of_mem u hu2)), List.length_cons,
        List.replicate_succ]

/-- C1: Update succeeds exactly when a stored row still carries the
caller's version: on success the table becomes the bumped table (the
matched row's version incremented by exactly 1, its fields set from the
caller) and the new version `mv.version + 1` is scanned back; afterwards
no row carries the old (id, version) pair any more. When zero rows match,
Update fails with ErrEditConflict and the table is unchanged. Serializing
any race of further Updates that carry the same starting version behind
this one (the atomic conditional write of §5 admits exactly these
serializations), the first succeeds and every other one fails with
ErrEditConflict, leaving the table as the single successful bump. -/
theorem MovieModel_Update_optimistic_concurrency
    (m : MovieModel) (mv r : Movie) (rest us : List Movie)
    (hmatch : movieMatched m.rows mv = r :: rest)
    (hus : ∀ u ∈ us, u.id = mv.id ∧ u.version = mv.version) :
    MovieModel.Update m mv = ({ m with rows := movieBumped m.rows mv }, .ok (mv.version + 1))
  ∧ (∀ r2 ∈ movieBumped m.rows mv, rowMatches mv r2 = false)
  ∧ (∀ mv2 : Movie, movieMatched m.rows mv2 = [] →
       MovieModel.Update m mv2 = (m, .error ErrEditConflict))
  ∧ MovieModel.applyUpdates m (mv :: us)
      = ({ m with rows := movieBumped m.rows mv },
         .ok (mv.version + 1) :: List.replicate us.length (.error ErrEditConflict)) := by
  have hrver : r.version = mv.version := by
    have hrmem : r ∈ movieMatched m.rows mv := by
      rw [hmatch]; exact List.mem_cons_self r rest
    unfold movieMatched at hrmem
    rw [List.mem_filter] at hrmem
    have := hrmem.2
    simp only [rowMatches, Bool.and_eq_true, beq_iff_eq] at this
    exact this.2
  have hupd0 : MovieModel.Update m mv
      = ({ m with rows := movieBumped m.rows mv }, .ok (r.version + 1)) := by
    unfold MovieModel.Update
    rw [hmatch]
  have hupd : MovieModel.Update m mv
      = ({ m with rows := movieBumped m.rows mv }, .ok (mv.version + 1)) := by
    rw [hupd0, hrver]
  refine ⟨hupd, rowMatches_bumped_false m.rows mv, fun mv2 h => movieUpdate_conflict m mv2 h, ?_⟩
  show (let first := MovieModel.Update m mv
        let rest2 := MovieModel.applyUpdates first.1 us
        (rest2.1, first.2 :: rest2.2)) = _
  rw [hupd]
  have hconf : ∀ u ∈ us,
      movieMatched ({ m with rows := movieBumped m.rows mv } : MovieModel).rows u = [] := by
    intro u hu
    exact movieMatched_nil_of_bumped m.rows mv u (hus u hu).1 (hus u hu).2
  simp only [applyUpdates_all_conflict _ us hconf]

/-- C1 witness: a table holding one movie at version 1; two racing updates
both carrying version 1 — the first returns the new version 2, the second
fails with ErrEditConflict. -/
theorem MovieModel_Update_optimistic_concurrency_witness :
    movieMatched [⟨1, 0, "Inception", 2010, 148, ["scifi"], 1⟩]
        ⟨1, 0, "Inception v2", 2010, 150, ["scifi"], 1⟩
      = [⟨1, 0, "Inception", 2010, 148, ["scifi"], 1⟩]
  ∧ (MovieModel.applyUpdates ⟨[⟨1, 0, "Inception", 2010, 148, ["scifi"], 1⟩], 2⟩
        [⟨1, 0, "Inception v2", 2010, 150, ["scifi"], 1⟩,
         ⟨1, 0, "Inception v3", 2010, 149, ["scifi"], 1⟩]).2
      = [Except.ok 2, Except.error ErrEditConflict] := by
  refine ⟨by decide, ?_⟩
  have h := (MovieModel_Update_optimistic_concurrency
      ⟨[⟨1, 0, "Inception", 2010, 148, ["scifi"], 1⟩], 2⟩
      ⟨1, 0, "Inception v2", 2010, 150, ["scifi"], 1⟩
      ⟨1, 0, "Inception", 2010, 148, ["scifi"], 1⟩ []
      [⟨1, 0, "Inception v3", 2010, 149, ["scifi"], 1⟩]
      (by decide) (by decide)).2.2.2
  rw [h]
  rfl

/-- C7: Insert assigns the serial id, the creation instant and version 1,
and a Get on the assigned id returns the stored record, whose version is 1
and whose id is at least 1 (the serial starts at 1); Get fails with
ErrRecordNotFound for every id below 1 and for every id no stored row
carries. -/
theorem MovieModel_Insert_then_Get (m : MovieModel) (now : Int) (mv : Movie) (id2 : Int)
    (hfresh : ∀ r ∈ m.rows, r.id ≠ m.nextId) (hpos : 1 ≤ m.nextId) :
    (MovieModel.Insert m now mv).2.version = 1
  ∧ 1 ≤ (MovieModel.Insert m now mv).2.id
  ∧ MovieModel.Get (MovieModel.Insert m now mv).1 (MovieModel.Insert m now mv).2.id
      = .ok (MovieModel.Insert m now mv).2
  ∧ (id2 < 1 → MovieModel.Get m id2 = .error ErrRecordNotFound)
  ∧ ((∀ r ∈ m.rows, r.id ≠ id2) → MovieModel.Get m id2 = .error ErrRecordNotFound) := by
  refine ⟨rfl, hpos, ?_, ?_, ?_⟩
  · unfold MovieModel.Get MovieModel.Insert
    have hnotlt : ¬ m.nextId < 1 := by omega
    rw [if_neg hnotlt]
    have hfilter : (m.rows ++ [{ mv with id := m.nextId, createdAt := now, version := 1 }]).filter
        (fun r => r.id == m.nextId)
        = [{ mv with id := m.nextId, createdAt := now, version := 1 }] := by
      rw [List.filter_append]
      have h1 : m.rows.filter (fun r => r.id == m.nextId) = [] := by
        rw [List.filter_eq_nil_iff]
        intro r hr
        simp [hfresh r hr]
      rw [h1]
      simp
    simp only [hfilter]
  · intro h
    unfold MovieModel.Get
    rw [if_pos h]
  · intro h
    unfold MovieModel.Get
    by_cases hlt : id2 < 1
    · rw [if_pos hlt]
    · rw [if_neg hlt]
      have hfilter : m.rows.filter (fun r => r.id == id2) = [] := by
        rw [List.filter_eq_nil_iff]
        intro r hr
        simp [h r hr]
      simp only [hfilter]

/-- C7 witness: inserting into an empty table assigns id 1 and version 1,
and Get(1) returns the inserted record. -/
theorem MovieModel_Insert_then_Get_witness :
    (1 : Int) ≤ (⟨[], 1⟩ : MovieModel).nextId
  ∧ (MovieModel.Insert ⟨[], 1⟩ 0 ⟨0, 0, "Inception", 2010, 148, ["scifi", "thriller"], 0⟩).2.version = 1
  ∧ MovieModel.Get
      (MovieModel.Insert ⟨[], 1⟩ 0 ⟨0, 0, "Inception", 2010, 148, ["scifi", "thriller"], 0⟩).1
      (MovieModel.Insert ⟨[], 1⟩ 0 ⟨0, 0, "Inception", 2010, 148, ["scifi", "thriller"], 0⟩).2.id
      = .ok (MovieModel.Insert ⟨[], 1⟩ 0 ⟨0, 0, "Inception", 2010, 148, ["scifi", "thriller"], 0⟩).2 :=
  ⟨by decide,
   (MovieModel_Insert_then_Get ⟨[], 1⟩ 0 ⟨0, 0, "Inception", 2010, 148, ["scifi", "thriller"], 0⟩ 0
      (by simp) (by decide)).1,
   (MovieModel_Insert_then_Get ⟨[], 1⟩ 0 ⟨0, 0, "Inception", 2010, 148, ["scifi", "thriller"], 0⟩ 0
      (by simp) (by decide)).2.2.1⟩

theorem parseDigitsInt64_all_digits (neg : Bool) (ds : List Char) (N : Int)
    (h : parseDigitsInt64 neg ds = some N) : ds.all isDigitChar = true := by
  unfold parseDigitsInt64 at h
  by_cases h1 : ds = []
  · rw [if_pos h1] at h
    exact absurd h (by simp)
  · rw [if_neg h1] at h
    by_cases h2 : ds.all isDigitChar = true
    · exact h2
    · rw [if_pos h2] at h
      exact absurd h (by simp)

theorem isDigitChar_not_special (c : Char) (h : isDigitChar c = true) :
    c ≠ ' ' ∧ c ≠ '"' ∧ c ≠ '\\' := by
  refine ⟨?_, ?_, ?_⟩ <;> intro he <;> rw [he] at h <;> exact absurd h (by decide)

theorem strconvParseInt64_no_special (l : List Char) (N : Int)
    (h : strconvParseInt64 l = some N) :
    ∀ c ∈ l, c ≠ ' ' ∧ c ≠ '"' ∧ c ≠ '\\' := by
  unfold strconvParseInt64 at h
  split at h
  · intro c hc
    rcases List.mem_cons.mp hc with hc | hc
    · rw [hc]
      refine ⟨by decide, by decide, by decide⟩
    · have := List.all_eq_true.mp (parseDigitsInt64_all_digits _ _ _ h) c hc
      exact isDigitChar_not_special c (by simpa using this)
  · intro c hc
    rcases List.mem_cons.mp hc with hc | hc
    · rw [hc]
      refine ⟨by decide, by decide, by decide⟩
    · have := List.all_eq_true.mp (parseDigitsInt64_all_digits _ _ _ h) c hc
      exact isDigitChar_not_special c (by simpa using this)
  · intro c hc
    have := List.all_eq_true.mp (parseDigitsInt64_all_digits _ _ _ h) c hc
    exact isDigitChar_not_special c (by simpa using this)

theorem unquoteBody_closes (mid : List Char) (h : ∀ c ∈ mid, c ≠ '"' ∧ c ≠ '\\') :
    unquoteBody (mid ++ ['"']) = some mid := by
  induction mid with
  | nil => rfl
  | cons c rest ih =>
      have hc := h c (List.mem_cons_self c rest)
      show unquoteBody (c :: (rest ++ ['"'])) = some (c :: rest)
      unfold unquoteBody
      rw [if_neg hc.1, if_neg hc.2, ih (fun c2 hc2 => h c2 (List.mem_cons_of_mem c hc2))]
      rfl

theorem stringsSplitSpace_no_space (l : List Char) (h : ∀ c ∈ l, c ≠ ' ') :
    stringsSplitSpace l = [l] := by
  induction l with
  | nil => rfl
  | cons c rest ih =>
      unfold stringsSplitSpace
      rw [if_neg (h c (List.mem_cons_self c rest))]
      rw [ih (fun c2 hc2 => h c2 (List.mem_cons_of_mem c hc2))]

theorem stringsSplitSpace_append (l r : List Char) (h : ∀ c ∈ l, c ≠ ' ') :
    stringsSplitSpace (l ++ ' ' :: r) = l :: stringsSplitSpace r := by
  induction l with
  | nil => rfl
  | cons c rest ih =>
      show stringsSplitSpace (c :: (rest ++ ' ' :: r)) = (c :: rest) :: stringsSplitSpace r
      conv_lhs => unfold stringsSplitSpace
      rw [if_neg (h c (List.mem_cons_self c rest))]
      rw [ih (fun c2 hc2 => h c2 (List.mem_cons_of_mem c hc2))]

/-- C10: UnmarshalJSON accepts the quoted string built from any character
sequence that `strconv.ParseInt(_, 10, 64)` parses — every decimal
integer representable in int64, zero and negative values included —
followed by " mins", and stores the parsed value converted to int32 by
two's-complement wrapping, rather than rejecting non-positive or
out-of-int32-range minute counts. -/
theorem Runtime_UnmarshalJSON_accepts_int64 (s : List Char) (N : Int)
    (h : strconvParseInt64 s = some N) :
    Runtime.UnmarshalJSON ('"' :: ((s ++ ' ' :: "mins".data) ++ ['"'])) = .ok (int32ofInt N) := by
  have hspecial := strconvParseInt64_no_special s N h
  have hunq : strconvUnquote ('"' :: ((s ++ ' ' :: "mins".data) ++ ['"']))
      = some (s ++ ' ' :: "mins".data) := by
    show unquoteBody ((s ++ ' ' :: "mins".data) ++ ['"']) = some (s ++ ' ' :: "mins".data)
    apply unquoteBody_closes
    intro c hc
    rcases List.mem_append.mp hc with hcs | hcm
    · exact ⟨(hspecial c hcs).2.1, (hspecial c hcs).2.2⟩
    · exact (by decide : ∀ c2 ∈ (' ' :: "mins".data), c2 ≠ '"' ∧ c2 ≠ '\\') c hcm
  have hsplit : stringsSplitSpace (s ++ ' ' :: "mins".data) = [s, "mins".data] := by
    rw [stringsSplitSpace_append s _ (fun c hc => (hspecial c hc).1)]
    rw [stringsSplitSpace_no_space "mins".data (by decide)]
  unfold Runtime.UnmarshalJSON
  simp only [hunq, hsplit, h]
  simp

/-- C10 witness: "4294967298 mins" — a value outside the int32 range —
decodes successfully and wraps to 2. -/
theorem Runtime_UnmarshalJSON_accepts_int64_witness :
    strconvParseInt64 "4294967298".data = some 4294967298
  ∧ Runtime.UnmarshalJSON ('"' :: (("4294967298".data ++ ' ' :: "mins".data) ++ ['"']))
      = .ok (int32ofInt 4294967298)
  ∧ int32ofInt 4294967298 = 2 :=
  ⟨by decide,
   Runtime_UnmarshalJSON_accepts_int64 "4294967298".data 4294967298 (by decide),
   by decide⟩

/-- C6: TokenModel.New builds the token from the 16 CSPRNG bytes — the
plaintext is their unpadded base-32 encoding, the hash is the SHA-256
digest of the plaintext (hence deterministically derivable from it), the
expiry is now + ttl — persists exactly the row (hash, userID, expiry,
scope), and returns the Token with the plaintext included. -/
theorem TokenModel_New_issues_and_persists (db : List TokenRow) (now : Int)
    (csprng : Nat → List Nat) (userID ttl : Int) (scope : String) :
    TokenModel.New db now csprng userID ttl scope
      = (db ++ [⟨(generateToken now csprng userID ttl scope).Hash, userID, now + ttl, scope⟩],
         generateToken now csprng userID ttl scope)
  ∧ (generateToken now csprng userID ttl scope).PlainText = base32EncodeNoPad (csprng 16)
  ∧ (generateToken now csprng userID ttl scope).Hash
      = sha256String ((generateToken now csprng userID ttl scope).PlainText)
  ∧ (generateToken now csprng userID ttl scope).UserID = userID
  ∧ (generateToken now csprng userID ttl scope).Expiry = now + ttl
  ∧ (generateToken now csprng userID ttl scope).Scope = scope :=
  ⟨rfl, rfl, rfl, rfl, rfl, rfl⟩

theorem b32groups_length : ∀ l : List Nat, (b32groups l).length = (8 * l.length + 4) / 5 := by
  intro l
  induction l using b32groups.induct <;> simp [b32groups] <;> omega

theorem base32EncodeNoPad_length (bytes : List Nat) (h : bytes.length = 16) :
    (base32EncodeNoPad bytes).length = 26 := by
  unfold base32EncodeNoPad
  have hmk : (String.mk ((b32groups bytes).map b32char)).length
      = ((b32groups bytes).map b32char).length := rfl
  rw [hmk, List.length_map, b32groups_length, h]

theorem sha256_length (msg : List Nat) : (sha256 msg).length = 32 := by
  unfold sha256 stateBytes wordBytes
  simp

/-- C9: a generated token's plaintext is exactly 26 characters (the
unpadded base-32 encoding of 16 bytes), its hash is the 32-byte SHA-256
digest of that plaintext, and the plaintext passes ValidateTokenPlaintext
(non-empty, exactly 26 bytes) on a fresh validator. -/
theorem generateToken_plaintext_shape (now : Int) (csprng : Nat → List Nat)
    (userID ttl : Int) (scope : String) (tok : Token)
    (hrand : (csprng 16).length = 16)
    (htok : tok = generateToken now csprng userID ttl scope) :
    tok.PlainText.length = 26
  ∧ tok.Hash.length = 32
  ∧ tok.Hash = sha256String tok.PlainText
  ∧ (ValidateTokenPlaintext ⟨[]⟩ tok.PlainText).Valid = true := by
  subst htok
  have hplen : (generateToken now csprng userID ttl scope).PlainText.length = 26 :=
    base32EncodeNoPad_length _ hrand
  refine ⟨hplen, sha256_length _, rfl, ?_⟩
  have hne : (generateToken now csprng userID ttl scope).PlainText ≠ "" := by
    intro he
    rw [he] at hplen
    exact absurd hplen (by decide)
  have h1 : ((generateToken now csprng userID ttl scope).PlainText != "") = true :=
    bne_iff_ne.mpr hne
  have h2 : ((generateToken now csprng userID ttl scope).PlainText.length == 26) = true :=
    beq_iff_eq.mpr hplen
  simp [ValidateTokenPlaintext, Validator.Check, h1, h2, Validator.Valid]

/-- C9 witness: with a byte source that fills the 16-byte slice, the
generated plaintext has length 26. -/
theorem generateToken_plaintext_shape_witness :
    ((fun n => List.replicate n 0) 16 : List Nat).length = 16
  ∧ (generateToken 0 (fun n => List.replicate n 0) 7 3600 "activation").PlainText.length = 26 :=
  ⟨by simp,
   (generateToken_plaintext_shape 0 (fun n => List.replicate n 0) 7 3600 "activation"
      (generateToken 0 (fun n => List.replicate n 0) 7 3600 "activation") (by simp) rfl).1⟩

theorem foldl_const_cons {α β : Type} (c i : β) (a : α) (l : List α) :
    (a :: l).foldl (fun _ _ => c) i = c := by
  induction l generalizing i a with
  | nil => rfl
  | cons b t ih => exact ih c b

theorem moviesMatching_noop (tsm : String → String → Bool) (rows : List Movie) :
    moviesMatching tsm "" [] rows = rows := by
  unfold moviesMatching
  rw [List.filter_eq_self]
  intro r _
  simp

/-- C5 (amended): with empty title query and empty genre filter the WHERE
clause matches every record (both no-op filters pass, combined with AND);
whenever the requested window overlaps the matching set (page ≥ 1,
pageSize ≥ 1, allow-listed sort field, offset below the matching count),
GetAll returns the LIMIT/OFFSET window of the matching set sorted by the
filter's sort column and direction with id ascending as tie-break — the
returned page is ordered by that relation and the sorted list is a
permutation of the whole table — and the metadata's totalRecords is the
size of the entire matching set before paging, not the page size. (The
unamended claim fails when the offset lies at or beyond the matching
count: the scan loop never runs, so totalRecords stays 0 — see the
counterexample theorem.) -/
theorem MovieModel_GetAll_noop_filters (m : MovieModel) (tsm : String → String → Bool)
    (f : Filters) (hpage : 1 ≤ f.Page) (hsize : 1 ≤ f.PageSize)
    (hsafe : f.SortField ∈ f.SortSafelist) (hoff : f.offset.toNat < m.rows.length) :
    moviesMatching tsm "" [] m.rows = m.rows
  ∧ (MovieModel.GetAll m tsm "" [] f).1
      = ((List.insertionSort (MovieLe f) m.rows).drop f.offset.toNat).take f.limit.toNat
  ∧ List.Perm (List.insertionSort (MovieLe f) m.rows) m.rows
  ∧ (MovieModel.GetAll m tsm "" [] f).1.Pairwise (MovieLe f)
  ∧ (MovieModel.GetAll m tsm "" [] f).2.TotalRecords = (m.rows.length : Int) := by
  have hmatch : moviesMatching tsm "" [] m.rows = m.rows := moviesMatching_noop tsm m.rows
  have hga : MovieModel.GetAll m tsm "" [] f
      = (((List.insertionSort (MovieLe f) m.rows).drop f.offset.toNat).take f.limit.toNat,
         calculateMetadata
           (((((List.insertionSort (MovieLe f) m.rows).drop f.offset.toNat).take
                f.limit.toNat).foldl (fun _ _ => m.rows.length) 0 : Nat) : Int)
           f.PageSize f.Page) := by
    unfold MovieModel.GetAll
    rw [hmatch]
  have hperm : List.Perm (List.insertionSort (MovieLe f) m.rows) m.rows :=
    List.perm_insertionSort (MovieLe f) m.rows
  have hsortlen : (List.insertionSort (MovieLe f) m.rows).length = m.rows.length :=
    hperm.length_eq
  have hlim : 1 ≤ f.limit.toNat := by
    unfold Filters.limit
    omega
  have hplen : 0 < (((List.insertionSort (MovieLe f) m.rows).drop f.offset.toNat).take
      f.limit.toNat).length := by
    rw [List.length_take, List.length_drop, hsortlen]
    omega
  have hfold : (((List.insertionSort (MovieLe f) m.rows).drop f.offset.toNat).take
      f.limit.toNat).foldl (fun _ _ => m.rows.length) 0 = m.rows.length := by
    cases hp : ((List.insertionSort (MovieLe f) m.rows).drop f.offset.toNat).take f.limit.toNat with
    | nil => rw [hp] at hplen; exact absurd hplen (by simp)
    | cons a t => exact foldl_const_cons m.rows.length 0 a t
  have hsub : (((List.insertionSort (MovieLe f) m.rows).drop f.offset.toNat).take
      f.limit.toNat).Sublist (List.insertionSort (MovieLe f) m.rows) :=
    (List.take_sublist _ _).trans (List.drop_sublist _ _)
  have hsorted : (List.insertionSort (MovieLe f) m.rows).Pairwise (MovieLe f) :=
    List.sorted_insertionSort (MovieLe f) m.rows
  refine ⟨hmatch, by rw [hga], hperm, ?_, ?_⟩
  · rw [hga]
    exact hsorted.sublist hsub
  · rw [hga]
    show (calculateMetadata _ f.PageSize f.Page).TotalRecords = (m.rows.length : Int)
    rw [hfold]
    unfold calculateMetadata
    rw [if_neg (by omega)]

/-- C5 witness: a single-record table with page 1, page size 1, sort "id":
totalRecords equals the full table count. -/
theorem MovieModel_GetAll_noop_filters_witness :
    (⟨1, 1, "id", ["id"]⟩ : Filters).offset.toNat < 1
  ∧ (MovieModel.GetAll ⟨[⟨1, 0, "Inception", 2010, 148, ["scifi"], 1⟩], 2⟩
        (fun _ _ => false) "" [] ⟨1, 1, "id", ["id"]⟩).2.TotalRecords
      = (((⟨[⟨1, 0, "Inception", 2010, 148, ["scifi"], 1⟩], 2⟩ : MovieModel)).rows.length : Int) :=
  ⟨by decide,
   (MovieModel_GetAll_noop_filters ⟨[⟨1, 0, "Inception", 2010, 148, ["scifi"], 1⟩], 2⟩
      (fun _ _ => false) ⟨1, 1, "id", ["id"]⟩ (by decide) (by decide) (by decide)
      (by decide)).2.2.2.2⟩

/-- C5 counterexample to the unamended claim: one matching record but
page 2 of size 1 — the returned page is empty, the scan loop never writes
the window count, and the metadata's totalRecords is 0, not the matching
count 1. -/
theorem MovieModel_GetAll_totalRecords_zero_on_empty_page :
    (MovieModel.GetAll ⟨[⟨1, 0, "Inception", 2010, 148, ["scifi"], 1⟩], 2⟩
        (fun _ _ => false) "" [] ⟨2, 1, "id", ["id"]⟩).2.TotalRecords = 0
  ∧ (moviesMatching (fun _ _ => false) "" []
        [⟨1, 0, "Inception", 2010, 148, ["scifi"], 1⟩]).length = 1 := by
  exact ⟨by decide, by decide⟩
